import Mathlib

/-!
Verification of the diaper-price aggregation pipeline.

Shallow embedding of the core source modules:
- the count extractor `extractCount` of `netlify/functions/get-diapers.js`
  (eight prioritised regex patterns, a numeric fallback scan and keyword
  defaults), modelled with a small backtracking regex interpreter that
  mirrors JavaScript leftmost-match semantics;
- `BaseScraper.calculatePricePerDiaper` and `BaseScraper.makeRequest`
  (base-scraper module);
- the database service `upsertDiaper` / `batchUpsertDiapers` /
  `recordPriceHistory` / `logScrapingSession` over an explicit table state;
- `ScraperManager.runScrapingJob` and the scheduled-scrape transform
  `runScheduledScraping`;
- the staleness scheduling of the serverless handler.
-/

namespace Diapers

abbrev Str := List Char

/-- Character class for the regex token `\d`. -/
def isDigitChar (c : Char) : Bool := decide ('0' ≤ c) && decide (c ≤ '9')

/-- Character class for the regex token `\s` (ASCII whitespace). -/
def isSpaceChar (c : Char) : Bool :=
  c = ' ' || c = '\t' || c = '\n' || c = '\r' || c = '\x0b' || c = '\x0c'

/-- Word characters, as used by the regex word-boundary token. -/
def isWordChar (c : Char) : Bool := c.isAlpha || isDigitChar c || c = '_'

/-- Decidable substring test (the JavaScript `String.prototype.includes`). -/
def isPrefOf : Str → Str → Bool
  | [], _ => true
  | _ :: _, [] => false
  | a :: as, b :: bs => a = b && isPrefOf as bs

/-- `isSubstring needle hay` holds when `needle` occurs contiguously in `hay`. -/
def isSubstring (needle : Str) : Str → Bool
  | [] => isPrefOf needle []
  | c :: rest => isPrefOf needle (c :: rest) || isSubstring needle rest

/-- Lower-casing of a string (the JavaScript `toLowerCase`). -/
def lowerStr (s : Str) : Str := s.map Char.toLower

/-- Regular-expression syntax covering exactly the constructs used by the
count-extraction patterns: character classes, sequencing, ordered
alternation, star over a character class, optional parts, a negative
lookahead over a character class, word boundaries, and the single
capture group of each pattern. -/
inductive RE where
  | eps : RE
  | cls (p : Char → Bool) : RE
  | seq (r1 r2 : RE) : RE
  | alt (r1 r2 : RE) : RE
  | starCls (p : Char → Bool) : RE
  | opt (r : RE) : RE
  | nlaCls (p : Char → Bool) : RE
  | wb : RE
  | grp (r : RE) : RE

/-- Last character of a consumed prefix, falling back to the previous
context character (needed for word boundaries inside a match). -/
def lastOpt (l : Str) (prev : Option Char) : Option Char :=
  match l.getLast? with
  | some c => some c
  | none => prev

/-- Merge capture results of two sequenced sub-matches (each pattern has a
single capture group, so at most one side captures). -/
def capMerge : Option Str → Option Str → Option Str
  | some c, _ => some c
  | none, c2 => c2

/-- All ways to match regex `r` against a prefix of `s`, in backtracking
priority order (the order a JavaScript regex engine explores them):
each element is (consumed prefix, remainder, capture of group 1).
`prev` is the character immediately before `s`, for word boundaries. -/
def matchList : RE → Option Char → Str → List (Str × Str × Option Str)
  | .eps, _, s => [([], s, none)]
  | .cls p, _, s =>
    match s with
    | [] => []
    | c :: rest => if p c then [([c], rest, none)] else []
  | .seq r1 r2, prev, s =>
    (matchList r1 prev s).flatMap fun x =>
      (matchList r2 (lastOpt x.1 prev) x.2.1).map fun y =>
        (x.1 ++ y.1, y.2.1, capMerge x.2.2 y.2.2)
  | .alt r1 r2, prev, s => matchList r1 prev s ++ matchList r2 prev s
  | .starCls p, _, s =>
    let m := (s.takeWhile p).length
    (List.range (m + 1)).map fun k => (s.take (m - k), s.drop (m - k), none)
  | .opt r, prev, s => matchList r prev s ++ [([], s, none)]
  | .nlaCls p, _, s =>
    match s.head? with
    | some c => if p c then [] else [([], s, none)]
    | none => [([], s, none)]
  | .wb, prev, s =>
    let left := match prev with | some c => isWordChar c | none => false
    let right := match s.head? with | some c => isWordChar c | none => false
    if left ≠ right then [([], s, none)] else []
  | .grp r, prev, s =>
    (matchList r prev s).map fun x => (x.1, x.2.1, some x.1)

/-- Leftmost-match search: try the pattern at each start position from the
left, returning the capture of the first success (JavaScript
`String.prototype.match` without the global flag, reading group 1). -/
def searchFrom (r : RE) : Str → Option Char → Option Str
  | s, prev =>
    match (matchList r prev s).head? with
    | some x => x.2.2
    | none =>
      match s with
      | [] => none
      | c :: rest => searchFrom r rest (some c)

/-- Capture of the leftmost match of `r` in `s`. -/
def firstCapture (r : RE) (s : Str) : Option Str := searchFrom r s none

/-- All matches of `r` in `s` scanning left to right without overlap (the
JavaScript global-flag `match`); `fuel` bounds the number of steps and is
instantiated with the string length plus one. -/
def allCaptures (r : RE) : Nat → Str → Option Char → List Str
  | 0, _, _ => []
  | fuel + 1, s, prev =>
    match (matchList r prev s).head? with
    | some x =>
      let caps := match x.2.2 with | some ds => [ds] | none => []
      if x.1.isEmpty then
        match s with
        | [] => caps
        | c :: rest => caps ++ allCaptures r fuel rest (some c)
      else caps ++ allCaptures r fuel x.2.1 (lastOpt x.1 prev)
    | none =>
      match s with
      | [] => []
      | c :: rest => allCaptures r fuel rest (some c)

/-- Case-insensitive literal character (all source patterns carry the `i` flag). -/
def charCI (c : Char) : RE := .cls fun d => d.toLower = c.toLower

/-- Case-insensitive literal word. -/
def litCI (l : Str) : RE := l.foldr (fun c r => .seq (charCI c) r) .eps

/-- The regex token `\d+`. -/
def dplus : RE := .seq (.cls isDigitChar) (.starCls isDigitChar)

/-- The regex token `\s*`. -/
def sstar : RE := .starCls isSpaceChar

/-- The regex token `\s+`. -/
def splus : RE := .seq (.cls isSpaceChar) sstar

/-- The regex token `[^\d]*`. -/
def nonDigitStar : RE := .starCls fun c => !isDigitChar c

/-- Digit string to number (the `parseInt(match[1], 10)` of the source). -/
def parseDigits (ds : Str) : Nat := ds.foldl (fun n c => n * 10 + (c.toNat - 48)) 0

/-- Unit alternation of the first pattern: `(count|ct|pack|pcs?|pieces?|diapers?)`. -/
def unitWords1 : RE :=
  .alt (litCI "count".toList)
    (.alt (litCI "ct".toList)
      (.alt (litCI "pack".toList)
        (.alt (.seq (litCI "pc".toList) (.opt (charCI 's')))
          (.alt (.seq (litCI "piece".toList) (.opt (charCI 's')))
            (.seq (litCI "diaper".toList) (.opt (charCI 's')))))))

/-- Source pattern 1: `/(\d+)\s*(count|ct|pack|pcs?|pieces?|diapers?)(?![\d\.])/i`. -/
def pattern1 : RE :=
  .seq (.grp dplus)
    (.seq sstar (.seq unitWords1 (.nlaCls fun c => isDigitChar c || c = '.')))

/-- Source pattern 2: `/size\s*\d+[^\d]*(\d+)\s*(count|ct|pack)/i`. -/
def pattern2 : RE :=
  .seq (litCI "size".toList)
    (.seq sstar
      (.seq dplus
        (.seq nonDigitStar
          (.seq (.grp dplus)
            (.seq sstar
              (.alt (litCI "count".toList)
                (.alt (litCI "ct".toList) (litCI "pack".toList))))))))

/-- Source pattern 3: `/[\(\[]\s*(\d+)\s*(count|ct|pack|pcs?)[\)\]]/i`. -/
def pattern3 : RE :=
  .seq (.cls fun c => c = '(' || c = '[')
    (.seq sstar
      (.seq (.grp dplus)
        (.seq sstar
          (.seq
            (.alt (litCI "count".toList)
              (.alt (litCI "ct".toList)
                (.alt (litCI "pack".toList)
                  (.seq (litCI "pc".toList) (.opt (charCI 's'))))))
            (.cls fun c => c = ')' || c = ']')))))

/-- Source pattern 4, a hyphen followed by `\s*(\d+)\s*(?:ct|count|pack)`,
case-insensitive. -/
def pattern4 : RE :=
  .seq (.cls fun c => c = '-')
    (.seq sstar
      (.seq (.grp dplus)
        (.seq sstar
          (.alt (litCI "ct".toList)
            (.alt (litCI "count".toList) (litCI "pack".toList))))))

/-- Source pattern 5: `/(\d+)\s+(?:disposable\s+)?(?:diapers?|pieces?)/i`. -/
def pattern5 : RE :=
  .seq (.grp dplus)
    (.seq splus
      (.seq (.opt (.seq (litCI "disposable".toList) splus))
        (.alt (.seq (litCI "diaper".toList) (.opt (charCI 's')))
          (.seq (litCI "piece".toList) (.opt (charCI 's'))))))

/-- Source pattern 6: `/(?:box|case)\s*(?:of\s*)?(\d+)/i`. -/
def pattern6 : RE :=
  .seq (.alt (litCI "box".toList) (litCI "case".toList))
    (.seq sstar (.seq (.opt (.seq (litCI "of".toList) sstar)) (.grp dplus)))

/-- Source pattern 7: `/month\s+supply[^\d]*(\d+)/i`. -/
def pattern7 : RE :=
  .seq (litCI "month".toList)
    (.seq splus (.seq (litCI "supply".toList) (.seq nonDigitStar (.grp dplus))))

/-- Source pattern 8: `/(?:giant|mega|super|jumbo)\s+pack[^\d]*(\d+)/i`. -/
def pattern8 : RE :=
  .seq
    (.alt (litCI "giant".toList)
      (.alt (litCI "mega".toList)
        (.alt (litCI "super".toList) (litCI "jumbo".toList))))
    (.seq splus (.seq (litCI "pack".toList) (.seq nonDigitStar (.grp dplus))))

/-- The ordered pattern list of `extractCount`. -/
def extractCountPatterns : List RE :=
  [pattern1, pattern2, pattern3, pattern4, pattern5, pattern6, pattern7, pattern8]

/-- The pattern loop of `extractCount`: first pattern whose leftmost match
parses into the plausible range `[12, 300]` wins; an out-of-range match
falls through to the next pattern. -/
def tryPatterns : List RE → Str → Option Nat
  | [], _ => none
  | p :: ps, name =>
    match firstCapture p name with
    | some ds =>
      if 12 ≤ parseDigits ds ∧ parseDigits ds ≤ 300 then some (parseDigits ds)
      else tryPatterns ps name
    | none => tryPatterns ps name

/-- The fallback regex `/\b(\d{2,3})\b/g`. -/
def fallbackPattern : RE :=
  .seq .wb
    (.seq (.grp (.seq (.cls isDigitChar) (.seq (.cls isDigitChar) (.opt (.cls isDigitChar)))))
      .wb)

/-- The fallback scan of `extractCount`: all standalone 2-3 digit numbers,
first one in the range `[20, 300]`. -/
def fallbackCount (name : Str) : Option Nat :=
  let nums := (allCaptures fallbackPattern (name.length + 1) name none).map parseDigits
  nums.find? fun n => decide (20 ≤ n) && decide (n ≤ 300)

/-- The keyword defaults of `extractCount` (checked on the lower-cased name). -/
def keywordDefault (name : Str) : Option Nat :=
  if isSubstring "mega".toList (lowerStr name) ||
      isSubstring "family".toList (lowerStr name) then some 144
  else if isSubstring "jumbo".toList (lowerStr name) ||
      isSubstring "giant".toList (lowerStr name) then some 120
  else if isSubstring "super".toList (lowerStr name) ||
      isSubstring "economy".toList (lowerStr name) then some 96
  else if isSubstring "newborn".toList (lowerStr name) ||
      isSubstring "preemie".toList (lowerStr name) then some 84
  else none

/-- `extractCount` of `netlify/functions/get-diapers.js` (identical copy in
the legacy serverless function): prioritised patterns, then the numeric
fallback, then keyword defaults, otherwise no count. -/
def extractCount (name : Str) : Option Nat :=
  if name = [] then none
  else
    match tryPatterns extractCountPatterns name with
    | some c => some c
    | none =>
      match fallbackCount name with
      | some n => some n
      | none => keywordDefault name

/-- Rounding to `d` decimal places over exact rationals, the model of the
JavaScript `toFixed(d)` / of a `DECIMAL(10, d)` column. -/
def roundTo (d : Nat) (q : ℚ) : ℚ := (round (q * (10 : ℚ) ^ d) : ℤ) / (10 : ℚ) ^ d

/-- `BaseScraper.calculatePricePerDiaper`: guard against a missing price or a
zero count, otherwise `parseFloat((price / count).toFixed(2))`. -/
def calculatePricePerDiaper (price : ℚ) (count : Nat) : Option ℚ :=
  if price = 0 ∨ count = 0 then none
  else some (roundTo 2 (price / (count : ℚ)))

/-- A row of the `diapers` table (`database/schema.sql`), restricted to the
columns the pipeline writes; the natural key is (brand, type, size, retailer). -/
structure DiaperRow where
  brand : String
  type : String
  size : String
  count : Nat
  retailer : String
  price : ℚ
  pricePerDiaper : ℚ
  url : String
  inStock : Bool
deriving DecidableEq, Repr

/-- The conflict test of the UNIQUE(brand, type, size, retailer) constraint. -/
def sameKey (a b : DiaperRow) : Bool :=
  a.brand = b.brand && a.type = b.type && a.size = b.size && a.retailer = b.retailer

/-- The DO UPDATE branch of the upsert: overwrite the mutable columns of the
conflicting row with the excluded (incoming) values. -/
def updateRow (r d : DiaperRow) : DiaperRow :=
  { r with
      count := d.count, price := d.price, pricePerDiaper := d.pricePerDiaper,
      url := d.url, inStock := d.inStock }

/-- `DatabaseService.upsertDiaper`: INSERT ... ON CONFLICT (brand, type, size,
retailer) DO UPDATE over the table state. -/
def upsertDiaper (table : List DiaperRow) (d : DiaperRow) : List DiaperRow :=
  if table.any fun r => sameKey r d then
    table.map fun r => if sameKey r d then updateRow r d else r
  else table ++ [d]

/-- The uniqueness invariant the schema enforces on the `diapers` table. -/
def KeyUnique (t : List DiaperRow) : Prop :=
  t.Pairwise fun a b => sameKey a b = false

/-- A row of the `price_history` table. -/
structure HistoryRow where
  diaperId : Nat
  price : ℚ
  pricePerDiaper : ℚ
  inStock : Bool
deriving DecidableEq, Repr

/-- A row of the `scraping_logs` table. -/
structure ScrapeLog where
  retailer : String
  productsFound : Nat
  success : Bool
  errorMessage : Option String
  executionTimeMs : Option Nat
deriving DecidableEq, Repr

/-- The three tables the database service touches. -/
structure DBState where
  diapers : List DiaperRow
  history : List HistoryRow
  logs : List ScrapeLog
deriving DecidableEq, Repr

/-- `DatabaseService.recordPriceHistory`: unconditionally INSERT one
`price_history` row. -/
def recordPriceHistory (db : DBState) (diaperId : Nat) (price pricePerDiaper : ℚ)
    (inStock : Bool) : DBState :=
  { db with history := db.history ++ [⟨diaperId, price, pricePerDiaper, inStock⟩] }

/-- `DatabaseService.logScrapingSession`: INSERT one `scraping_logs` row. -/
def logScrapingSession (db : DBState) (retailer : String) (productsFound : Nat)
    (success : Bool) (errorMessage : Option String) (executionTime : Option Nat) : DBState :=
  { db with logs := db.logs ++ [⟨retailer, productsFound, success, errorMessage, executionTime⟩] }

/-- `DatabaseService.batchUpsertDiapers` with the store's per-write outcome
made explicit: each listing carries whether its underlying SQL write
succeeds. The source loops over the listings inside a single try/catch;
`upsertDiaper` rethrows a storage error and the batch catch logs and
rethrows it, so the loop stops at the first failed write. The result is
the table after the writes that ran plus the propagated error, if any. -/
def batchUpsertDiapers : List (DiaperRow × Bool) → List DiaperRow →
    List DiaperRow × Option String
  | [], t => (t, none)
  | (d, ok) :: rest, t =>
    if ok then batchUpsertDiapers rest (upsertDiaper t d)
    else (t, some "storage error")

/-- A raw product record as returned by an adapter (`item` in the scheduled
scraping transform). -/
structure RawItem where
  name : Str
  brand : String
  size : String
  retailer : String
  price : ℚ
  url : String
  inStock : Bool

/-- The per-item transform of `runScheduledScraping`: drop the item when
`extractCount` yields nothing, otherwise build the listing with
`pricePerDiaper = price / count` (no rounding in this path). -/
def transformItem (item : RawItem) : Option DiaperRow :=
  match extractCount item.name with
  | none => none
  | some count =>
    some
      { brand := item.brand
        type := if item.name.isEmpty then "Diapers" else String.mk item.name
        size := item.size
        count := count
        retailer := item.retailer
        price := item.price
        pricePerDiaper := item.price / (count : ℚ)
        url := item.url
        inStock := item.inStock }

/-- Sequential batch upsert with every write succeeding (the effect of
`batchUpsertDiapers` on the happy path). -/
def batchApply (t : List DiaperRow) (ds : List DiaperRow) : List DiaperRow :=
  ds.foldl upsertDiaper t

/-- `runScheduledScraping` of `netlify/functions/get-diapers.js`, given the
adapter's returned items: transform and filter them, batch-upsert the
survivors, and log one session row. No statement of this function touches
the `price_history` table. -/
def runScheduledScraping (items : List RawItem) (executionTime : Nat)
    (db : DBState) : DBState :=
  if items.isEmpty then
    logScrapingSession db "Amazon.ca" 0 false (some "No data returned") (some executionTime)
  else
    logScrapingSession
      (if (items.filterMap transformItem).isEmpty then db
       else { db with diapers := batchApply db.diapers (items.filterMap transformItem) })
      "Amazon.ca" (items.filterMap transformItem).length true none (some executionTime)

/-- Settling of one adapter promise inside `ScraperManager.runScrapingJob`:
a resolved list passes through, a rejection is converted to an empty list. -/
def settleResult {α : Type} : Except String (List α) → List α
  | .ok ps => ps
  | .error _ => []

/-- `ScraperManager.runScrapingJob` (server/scrapers manager): map every
adapter outcome through the catch wrapper, await all, and flatten. The
function performs no database operation, so the store state passes through
unchanged. -/
def runScrapingJob {α : Type} (outcomes : List (Except String (List α)))
    (db : DBState) : List α × DBState :=
  ((outcomes.map settleResult).flatten, db)

/-- The slot-filling behaviour of `Promise.all`: each adapter settles at its
position in `schedule` order (an arbitrary completion order), writing its
result into its own slot of the results array. -/
def settleAll {α : Type} (results : List (List α)) (schedule : List Nat) :
    List (Option (List α)) :=
  schedule.foldl (fun slots i => slots.set i (some ((results.get? i).getD [])))
    (List.replicate results.length none)

/-- The aggregation of `runScrapingJob` under an explicit completion
schedule: read the settled slots back in registration order and flatten. -/
def runScrapingJobSched {α : Type} (results : List (List α))
    (schedule : List Nat) : List α :=
  ((settleAll results schedule).map fun o => o.getD []).flatten

/-- Blocking classification of `BaseScraper.makeRequest`: the body contains
`captcha` or `CAPTCHA` (case-sensitive `includes`), or is shorter than
1000 characters. -/
def isBlockedResponse (body : Str) : Bool :=
  isSubstring "captcha".toList body || isSubstring "CAPTCHA".toList body ||
    decide (body.length < 1000)

/-- The attempt loop of `BaseScraper.makeRequest`: a fetched body classified
as blocked raises, the raised error is caught and the next attempt runs;
a clean body returns immediately; when attempts are exhausted the last
error propagates. -/
def makeRequestLoop : List (Except String Str) → String → Except String Str
  | [], lastErr => .error lastErr
  | a :: rest, _ =>
    match a with
    | .ok body =>
      if isBlockedResponse body then
        makeRequestLoop rest "CAPTCHA detected or blocked response"
      else .ok body
    | .error e => makeRequestLoop rest e

/-- `BaseScraper.makeRequest` with `retryCount = 3`: the per-attempt fetch
outcomes are given as a list and at most three are consumed. -/
def makeRequest (attempts : List (Except String Str)) : Except String Str :=
  makeRequestLoop (attempts.take 3) "request failed"

/-- `SCRAPING_INTERVAL` of the serverless function: the configured hour count
converted to milliseconds, defaulting to 12 hours. -/
def scrapingInterval (envHours : Option Nat) : Nat :=
  match envHours with
  | some h => h * 60 * 60 * 1000
  | none => 12 * 60 * 60 * 1000

/-- The staleness test of the handler:
`!lastScrapingTime || (now - lastScrapingTime) >= SCRAPING_INTERVAL`. -/
def shouldScrape (lastScrapingTime : Option Nat) (now interval : Nat) : Bool :=
  match lastScrapingTime with
  | none => true
  | some t => decide (interval ≤ now - t)

/-- Scheduling state of the handler. `lastScrapingTime` is the module-level
variable of the source; `lastSuccessfulRun` is a history (ghost) field
recording when a scrape last succeeded, used only to state the policy. -/
structure SchedState where
  lastScrapingTime : Option Nat
  lastSuccessfulRun : Option Nat

/-- One request through the handler's scheduling logic: scrape exactly when
`shouldScrape` says so, then set `lastScrapingTime = now` (the source
updates it whether or not the scrape succeeded); the ghost field follows
the actual outcome. Returns whether a scrape was triggered. -/
def handlerStep (st : SchedState) (now interval : Nat) (scrapeSucceeds : Bool) :
    Bool × SchedState :=
  if shouldScrape st.lastScrapingTime now interval then
    (true,
      { lastScrapingTime := some now
        lastSuccessfulRun := if scrapeSucceeds then some now else st.lastSuccessfulRun })
  else (false, st)

/-- Reachability invariant of the scheduling state: a successful run is in
particular a run, so it is no later than the last attempt. It holds of the
initial state (both fields `none`) and is preserved by `handlerStep`. -/
def SchedInv (st : SchedState) : Prop :=
  ∀ t, st.lastSuccessfulRun = some t → ∃ u, st.lastScrapingTime = some u ∧ t ≤ u

/-- Equality of the mutable (overwritten-on-conflict) columns. -/
def mutableMatches (r d : DiaperRow) : Prop :=
  r.count = d.count ∧ r.price = d.price ∧ r.pricePerDiaper = d.pricePerDiaper ∧
    r.url = d.url ∧ r.inStock = d.inStock

lemma sameKey_updateRow_left (r d x : DiaperRow) :
    sameKey (updateRow r d) x = sameKey r x := rfl

lemma sameKey_updateRow_right (x r d : DiaperRow) :
    sameKey x (updateRow r d) = sameKey x r := rfl

lemma sameKey_trans_of (a b d : DiaperRow) (haa : sameKey a d = true)
    (hb : sameKey b d = true) : sameKey a b = true := by
  simp only [sameKey, Bool.and_eq_true, decide_eq_true_eq] at haa hb ⊢
  obtain ⟨⟨⟨h1, h2⟩, h3⟩, h4⟩ := haa
  obtain ⟨⟨⟨g1, g2⟩, g3⟩, g4⟩ := hb
  exact ⟨⟨⟨h1.trans g1.symm, h2.trans g2.symm⟩, h3.trans g3.symm⟩, h4.trans g4.symm⟩

lemma filter_key_of_any_false (t : List DiaperRow) (d : DiaperRow)
    (hany : (t.any fun r => sameKey r d) = false) :
    t.filter (fun r => sameKey r d) = [] := by
  rw [List.filter_eq_nil_iff]
  intro b hb
  rw [List.any_eq_false] at hany
  simpa using hany b hb

lemma map_update_id (t : List DiaperRow) (d : DiaperRow)
    (hany : (t.any fun r => sameKey r d) = false) :
    (t.map fun r => if sameKey r d then updateRow r d else r) = t := by
  have h : (t.map fun r => if sameKey r d then updateRow r d else r) = t.map id := by
    apply List.map_congr_left
    intro a hat
    rw [List.any_eq_false] at hany
    have := hany a hat
    simp only [Bool.not_eq_true] at this
    simp [this]
  simpa using h

lemma updateRow_idem (r d : DiaperRow) : updateRow (updateRow r d) d = updateRow r d := rfl

lemma updateRow_self (d : DiaperRow) : updateRow d d = d := rfl

lemma sameKey_refl (d : DiaperRow) : sameKey d d = true := by simp [sameKey]

lemma filter_key_length_le_one (t : List DiaperRow) (d : DiaperRow)
    (h : KeyUnique t) : ((t.filter fun r => sameKey r d).length ≤ 1) := by
  induction t with
  | nil => simp
  | cons a t ih =>
    rw [KeyUnique, List.pairwise_cons] at h
    by_cases ha : sameKey a d = true
    · have hnil : t.filter (fun r => sameKey r d) = [] := by
        rw [List.filter_eq_nil_iff]
        intro b hb hbd
        have := sameKey_trans_of a b d ha hbd
        rw [h.1 b hb] at this
        exact Bool.false_ne_true this
      simp [List.filter_cons, ha, hnil]
    · simp only [List.filter_cons, ha]
      simpa using ih h.2

lemma keyUnique_upsert (t : List DiaperRow) (d : DiaperRow) (h : KeyUnique t) :
    KeyUnique (upsertDiaper t d) := by
  unfold upsertDiaper
  cases hany : (t.any fun r => sameKey r d) with
  | true =>
    rw [if_pos rfl]
    rw [KeyUnique, List.pairwise_map]
    refine h.imp ?_
    intro a b hab
    by_cases ha : sameKey a d = true <;> by_cases hb : sameKey b d = true <;>
      simp [ha, hb, sameKey_updateRow_left, sameKey_updateRow_right, hab]
  | false =>
    rw [if_neg Bool.false_ne_true]
    rw [KeyUnique, List.pairwise_append]
    refine ⟨h, List.pairwise_singleton _ _, ?_⟩
    intro a ha b hb
    rw [List.mem_singleton] at hb
    subst hb
    rw [List.any_eq_false] at hany
    have := hany a ha
    simpa only [Bool.not_eq_true] using this

lemma any_key_upsert (t : List DiaperRow) (d : DiaperRow) :
    ((upsertDiaper t d).any fun r => sameKey r d) = true := by
  unfold upsertDiaper
  cases hany : (t.any fun r => sameKey r d) with
  | true =>
    rw [if_pos rfl, List.any_eq_true]
    rw [List.any_eq_true] at hany
    obtain ⟨a, hat, had⟩ := hany
    refine ⟨updateRow a d, ?_, by rw [sameKey_updateRow_left]; exact had⟩
    rw [List.mem_map]
    exact ⟨a, hat, by simp [had]⟩
  | false =>
    rw [if_neg Bool.false_ne_true, List.any_eq_true]
    exact ⟨d, by simp, sameKey_refl d⟩

lemma upsert_filter_key (t : List DiaperRow) (d : DiaperRow) (h : KeyUnique t) :
    ((upsertDiaper t d).filter fun r => sameKey r d).length = 1 ∧
      ∀ r ∈ (upsertDiaper t d).filter fun r => sameKey r d, mutableMatches r d := by
  have hle := filter_key_length_le_one (upsertDiaper t d) d (keyUnique_upsert t d h)
  constructor
  · have hne : (upsertDiaper t d).filter (fun r => sameKey r d) ≠ [] := by
      have := any_key_upsert t d
      rw [List.any_eq_true] at this
      obtain ⟨a, hat, had⟩ := this
      exact List.ne_nil_of_mem (List.mem_filter.mpr ⟨hat, had⟩)
    have h1 := List.length_pos.mpr hne
    omega
  · intro r hr
    rw [List.mem_filter] at hr
    obtain ⟨hmem, hrd⟩ := hr
    unfold upsertDiaper at hmem
    cases hany : (t.any fun r => sameKey r d) with
    | true =>
      rw [hany, if_pos rfl, List.mem_map] at hmem
      obtain ⟨b, _, hbr⟩ := hmem
      by_cases hbd : sameKey b d = true
      · rw [if_pos hbd] at hbr
        subst hbr
        exact ⟨rfl, rfl, rfl, rfl, rfl⟩
      · rw [if_neg hbd] at hbr
        subst hbr
        exact absurd hrd hbd
    | false =>
      rw [hany, if_neg Bool.false_ne_true, List.mem_append] at hmem
      cases hmem with
      | inl hmem =>
        exfalso
        rw [List.any_eq_false] at hany
        have := hany r hmem
        simp only [Bool.not_eq_true] at this
        rw [this] at hrd
        exact Bool.false_ne_true hrd
      | inr hmem =>
        rw [List.mem_singleton] at hmem
        subst hmem
        exact ⟨rfl, rfl, rfl, rfl, rfl⟩

lemma upsert_upsert_eq (t : List DiaperRow) (d : DiaperRow) :
    upsertDiaper (upsertDiaper t d) d = upsertDiaper t d := by
  have hany2 := any_key_upsert t d
  conv_lhs => rw [upsertDiaper]
  rw [hany2, if_pos rfl]
  unfold upsertDiaper
  cases hany : (t.any fun r => sameKey r d) with
  | true =>
    rw [if_pos rfl, List.map_map]
    apply List.map_congr_left
    intro a _
    by_cases had : sameKey a d = true
    · simp only [Function.comp_apply]
      rw [if_pos had, sameKey_updateRow_left, if_pos had]
      exact updateRow_idem a d
    · simp only [Function.comp_apply]
      rw [if_neg had, if_neg had]
  | false =>
    rw [if_neg Bool.false_ne_true, List.map_append, map_update_id t d hany]
    simp [sameKey_refl, updateRow_self]

/-- Claim C3: upsert is idempotent on the natural key (brand, type, size,
retailer): applying the same listing twice to a key-unique table leaves
exactly one stored record for that key, holding the values of the latest
application — never a second row. -/
theorem upsert_idempotent_on_natural_key (t : List DiaperRow) (d : DiaperRow)
    (h : KeyUnique t) :
    upsertDiaper (upsertDiaper t d) d = upsertDiaper t d ∧
    ((upsertDiaper (upsertDiaper t d) d).filter fun r => sameKey r d).length = 1 ∧
    ∀ r ∈ (upsertDiaper (upsertDiaper t d) d).filter fun r => sameKey r d,
      mutableMatches r d := by
  have h2 := upsert_filter_key (upsertDiaper t d) d (keyUnique_upsert t d h)
  exact ⟨upsert_upsert_eq t d, h2.1, h2.2⟩

/-- Batch upsert over listings whose writes all succeed coincides with the
pure sequential upsert fold. -/
lemma batchUpsertDiapers_all_ok (ds : List DiaperRow) (t : List DiaperRow) :
    batchUpsertDiapers (ds.map fun d => (d, true)) t = (batchApply t ds, none) := by
  induction ds generalizing t with
  | nil => rfl
  | cons a ds ih =>
    simp only [List.map_cons, batchUpsertDiapers, if_pos rfl, batchApply, List.foldl_cons]
    exact ih (upsertDiaper t a)

/-- Counterexample to claim C5: in a batch of three listings whose middle
write fails, `batchUpsertDiapers` stops at the failure — the third listing
is never upserted, so the batch does not continue with the remaining
listings. -/
theorem batch_upsert_abort_counterexample :
    (batchUpsertDiapers
        [(⟨"Pampers", "A", "3", 100, "Amazon.ca", 10, 1/10, "u", true⟩, true),
         (⟨"Huggies", "B", "3", 100, "Amazon.ca", 10, 1/10, "u", true⟩, false),
         (⟨"Kirkland", "C", "3", 100, "Amazon.ca", 10, 1/10, "u", true⟩, true)] []).2
      = some "storage error" ∧
    ((batchUpsertDiapers
        [(⟨"Pampers", "A", "3", 100, "Amazon.ca", 10, 1/10, "u", true⟩, true),
         (⟨"Huggies", "B", "3", 100, "Amazon.ca", 10, 1/10, "u", true⟩, false),
         (⟨"Kirkland", "C", "3", 100, "Amazon.ca", 10, 1/10, "u", true⟩, true)] []).1.all
      fun r => !sameKey r ⟨"Kirkland", "C", "3", 100, "Amazon.ca", 10, 1/10, "u", true⟩) = true := by
  constructor <;> rfl

/-- Claim C5 (amended): a storage error while upserting one listing aborts
the remainder of the batch — the listings before the failure are persisted,
the failing and the remaining listings are not attempted, and the error is
logged and rethrown to the caller of `batchUpsertDiapers`. -/
theorem batch_upsert_aborts_on_failure (pre : List DiaperRow) (d : DiaperRow)
    (post : List (DiaperRow × Bool)) (t : List DiaperRow) :
    batchUpsertDiapers ((pre.map fun x => (x, true)) ++ (d, false) :: post) t
      = (batchApply t pre, some "storage error") := by
  induction pre generalizing t with
  | nil => rfl
  | cons a pre ih =>
    simp only [List.map_cons, List.cons_append, batchUpsertDiapers, if_pos rfl,
      batchApply, List.foldl_cons]
    exact ih (upsertDiaper t a)

/-- Witness for C5 (amended) at a concrete three-listing batch. -/
theorem batch_upsert_aborts_on_failure_witness :
    batchUpsertDiapers
        [(⟨"Pampers", "A", "3", 100, "Amazon.ca", 10, 1/10, "u", true⟩, true),
         (⟨"Huggies", "B", "3", 100, "Amazon.ca", 10, 1/10, "u", true⟩, false),
         (⟨"Kirkland", "C", "3", 100, "Amazon.ca", 10, 1/10, "u", true⟩, true)] []
      = (batchApply [] [⟨"Pampers", "A", "3", 100, "Amazon.ca", 10, 1/10, "u", true⟩],
         some "storage error") :=
  batch_upsert_aborts_on_failure
    [⟨"Pampers", "A", "3", 100, "Amazon.ca", 10, 1/10, "u", true⟩]
    ⟨"Huggies", "B", "3", 100, "Amazon.ca", 10, 1/10, "u", true⟩
    [(⟨"Kirkland", "C", "3", 100, "Amazon.ca", 10, 1/10, "u", true⟩, true)] []

/-- Counterexample to claim C2: with one adapter resolving and one rejecting,
`runScrapingJob` returns the other adapter's results but records zero
ScrapeSessionLog entries, not exactly one failed entry for the failing
retailer. -/
theorem run_scraping_job_no_log_counterexample :
    (runScrapingJob [Except.ok ["p1"], Except.error "boom"] ⟨[], [], []⟩).1 = ["p1"] ∧
    ((runScrapingJob [Except.ok ["p1"], Except.error "boom"] ⟨[], [], []⟩).2).logs.length = 0 := by
  constructor <;> rfl

/-- Claim C2 (amended): if exactly one adapter's `searchDiapers` rejects
during `runScrapingJob`, the job still returns the flattened results of
every other adapter, the failing adapter contributing an empty array; but
`runScrapingJob` records no ScrapeSessionLog entry at all — the store state
passes through unchanged (session logging exists only in the serverless
scheduled-scraping path). -/
theorem run_scraping_job_fault_isolation {α : Type} (pre post : List (List α))
    (e : String) (db : DBState) :
    runScrapingJob ((pre.map Except.ok) ++ Except.error e :: (post.map Except.ok)) db
      = (pre.flatten ++ post.flatten, db) := by
  unfold runScrapingJob
  congr 1
  rw [List.map_append, List.map_cons, List.map_map, List.map_map]
  have hpre : (settleResult ∘ Except.ok : List α → List α) = id := rfl
  rw [hpre, List.map_id, List.map_id, List.flatten_append, List.flatten_cons]
  rfl

/-- Slot lookup after the settle fold of `Promise.all`: a slot holds its own
adapter's result exactly when that adapter has settled, independently of the
settle order. -/
lemma settle_foldl_getElem {α : Type} (results : List (List α)) :
    ∀ (schedule : List Nat) (slots : List (Option (List α))) (i : Nat),
      i < slots.length →
      (schedule.foldl (fun sl j => sl.set j (some ((results.get? j).getD []))) slots)[i]?
        = if i ∈ schedule then some (some ((results.get? i).getD [])) else slots[i]? := by
  intro schedule
  induction schedule with
  | nil => intro slots i hi; simp
  | cons a s ih =>
    intro slots i hi
    rw [List.foldl_cons, ih _ i (by rw [List.length_set]; exact hi)]
    by_cases his : i ∈ s
    · rw [if_pos his, if_pos (List.mem_cons_of_mem a his)]
    · rw [if_neg his]
      by_cases hia : i = a
      · subst hia
        rw [if_pos (List.mem_cons_self i s), List.getElem?_set_self',
          List.getElem?_eq_getElem hi]
        rfl
      · rw [List.getElem?_set_ne fun h => hia h.symm]
        rw [if_neg (by simp [hia, his])]

/-- The settle fold preserves the slot-array length. -/
lemma settle_foldl_length {α : Type} (results : List (List α)) :
    ∀ (schedule : List Nat) (slots : List (Option (List α))),
      (schedule.foldl (fun sl j => sl.set j (some ((results.get? j).getD []))) slots).length
        = slots.length := by
  intro schedule
  induction schedule with
  | nil => intro slots; rfl
  | cons a s ih => intro slots; rw [List.foldl_cons, ih, List.length_set]

/-- When every adapter index settles (the schedule is a permutation of all
indices), the settled slot array is the results array in registration
order. -/
lemma settleAll_eq_map_some {α : Type} (results : List (List α)) (schedule : List Nat)
    (hperm : schedule.Perm (List.range results.length)) :
    settleAll results schedule = results.map some := by
  apply List.ext_getElem?
  intro i
  unfold settleAll
  by_cases hi : i < results.length
  · have hmem : i ∈ schedule := hperm.mem_iff.mpr (List.mem_range.mpr hi)
    rw [settle_foldl_getElem results schedule _ i (by simpa using hi), if_pos hmem,
      List.getElem?_map, List.getElem?_eq_getElem hi]
    simp [List.get?_eq_getElem?, List.getElem?_eq_getElem hi]
  · have h1 : (schedule.foldl
        (fun sl j => sl.set j (some ((results.get? j).getD [])))
        (List.replicate results.length (none : Option (List α)))).length
        = results.length := by
      rw [settle_foldl_length, List.length_replicate]
    rw [List.getElem?_eq_none (by omega), List.getElem?_eq_none (by simp; omega)]

/-- Claim C10: although adapters run concurrently, the list returned by
`runScrapingJob` is deterministic in order: whatever the completion
schedule (any permutation of the adapter indices), the output equals the
concatenation of the per-adapter result lists in registration order. -/
theorem run_scraping_job_order_deterministic {α : Type} (results : List (List α))
    (schedule : List Nat) (hperm : schedule.Perm (List.range results.length)) :
    runScrapingJobSched results schedule = results.flatten := by
  unfold runScrapingJobSched
  rw [settleAll_eq_map_some results schedule hperm, List.map_map]
  have h : ((fun o => Option.getD o []) ∘ (some : List α → Option (List α))) = id := rfl
  rw [h, List.map_id]

/-- Witness for C10: a two-adapter job whose second adapter finishes first
still returns the results in registration order. -/
theorem run_scraping_job_order_deterministic_witness :
    ([1, 0].Perm (List.range 2)) ∧
      runScrapingJobSched [[1], [2, 3]] [1, 0] = [1, 2, 3] :=
  ⟨by decide, run_scraping_job_order_deterministic [[1], [2, 3]] [1, 0] (by decide)⟩

lemma tryPatterns_range (ps : List RE) (name : Str) (n : Nat)
    (h : tryPatterns ps name = some n) : 12 ≤ n ∧ n ≤ 300 := by
  induction ps with
  | nil => cases h
  | cons p ps ih =>
    unfold tryPatterns at h
    split at h
    · split at h
      · rename_i hcond
        cases h
        exact hcond
      · exact ih h
    · exact ih h

lemma fallbackCount_range (name : Str) (n : Nat)
    (h : fallbackCount name = some n) : 20 ≤ n ∧ n ≤ 300 := by
  unfold fallbackCount at h
  have := List.find?_some h
  simp only [Bool.and_eq_true, decide_eq_true_eq] at this
  exact this

lemma keywordDefault_range (name : Str) (n : Nat)
    (h : keywordDefault name = some n) : 12 ≤ n ∧ n ≤ 300 := by
  unfold keywordDefault at h
  split at h
  · cases h; omega
  · split at h
    · cases h; omega
    · split at h
      · cases h; omega
      · split at h
        · cases h; omega
        · cases h

lemma extractCount_range (name : Str) (n : Nat)
    (h : extractCount name = some n) : 12 ≤ n ∧ n ≤ 300 := by
  unfold extractCount at h
  split at h
  · cases h
  · cases htp : tryPatterns extractCountPatterns name with
    | some c =>
      rw [htp] at h
      cases h
      exact tryPatterns_range _ _ _ htp
    | none =>
      rw [htp] at h
      cases hfb : fallbackCount name with
      | some m =>
        rw [hfb] at h
        cases h
        have := fallbackCount_range _ _ hfb
        omega
      | none =>
        rw [hfb] at h
        exact keywordDefault_range _ _ h

/-- Claim C9: every count `extractCount` produces lies in `[12, 300]`, hence
is strictly positive, and for such a count the zero-count guard of
`calculatePricePerDiaper` is never the branch taken: with any nonzero price
the division is performed. -/
theorem extract_count_range_safe (name : Str) (n : Nat)
    (h : extractCount name = some n) :
    12 ≤ n ∧ n ≤ 300 ∧ 0 < n ∧
      ∀ p : ℚ, p ≠ 0 → calculatePricePerDiaper p n = some (roundTo 2 (p / (n : ℚ))) := by
  obtain ⟨h1, h2⟩ := extractCount_range name n h
  refine ⟨h1, h2, by omega, ?_⟩
  intro p hp
  unfold calculatePricePerDiaper
  rw [if_neg]
  push_neg
  exact ⟨hp, by omega⟩

/-- Witness for C9 at the spec's example title. -/
theorem extract_count_range_safe_witness :
    extractCount "Pampers Baby Dry Size 3 (198 Count)".toList = some 198 ∧
      calculatePricePerDiaper 1 198 = some (roundTo 2 (1 / (198 : ℚ))) := by
  have hex : extractCount "Pampers Baby Dry Size 3 (198 Count)".toList = some 198 := by decide
  have h := extract_count_range_safe "Pampers Baby Dry Size 3 (198 Count)".toList 198 hex
  exact ⟨hex, h.2.2.2 1 one_ne_zero⟩

/-- Counterexample to claim C1: the adapter-extraction write path
(`calculatePricePerDiaper`) rounds to 2 decimal places, not 4: at total
price 54.97 and pack count 198 it stores 0.28, while rounding the quotient
to 4 decimal places gives 0.2776 — a deviation of 0.0024, beyond any
4-decimal rounding tolerance. -/
theorem price_per_unit_rounding_counterexample :
    calculatePricePerDiaper (5497/100) 198 = some (7/25) ∧
    roundTo 4 ((5497/100) / (198 : ℚ)) = 347/1250 ∧
    ¬ |(7/25 : ℚ) - 347/1250| ≤ 1/10000 := by
  refine ⟨?_, ?_, ?_⟩
  · unfold calculatePricePerDiaper
    rw [if_neg (by norm_num)]
    congr 1
    unfold roundTo
    rw [round_eq]
    norm_num
  · unfold roundTo
    rw [round_eq]
    norm_num
  · rw [show (7/25 : ℚ) - 347/1250 = 3/1250 by norm_num,
      abs_of_pos (by norm_num : (0 : ℚ) < 3/1250)]
    norm_num

/-- Claim C1 (amended): the two write paths compute price-per-unit
differently. `calculatePricePerDiaper` (used by the retailer adapters)
rounds the quotient to 2 decimal places; the scheduled-scrape transform of
`runScheduledScraping` stores the exact quotient `price / count`, so for it
the stored value times the count recovers the total price exactly and its
4-decimal persisted form is `round(totalPrice / packCount, 4)`. -/
theorem price_per_unit_write_paths (p : ℚ) (c : Nat) (hp : p ≠ 0) (hc : c ≠ 0)
    (item : RawItem) (row : DiaperRow) (hrow : transformItem item = some row) :
    calculatePricePerDiaper p c = some (roundTo 2 (p / (c : ℚ))) ∧
    row.pricePerDiaper * (row.count : ℚ) = row.price := by
  constructor
  · unfold calculatePricePerDiaper
    rw [if_neg]
    push_neg
    exact ⟨hp, hc⟩
  · unfold transformItem at hrow
    cases hext : extractCount item.name with
    | none => rw [hext] at hrow; cases hrow
    | some count =>
      rw [hext] at hrow
      have hcount := extractCount_range item.name count hext
      cases hrow
      show item.price / (count : ℚ) * (count : ℚ) = item.price
      have : (count : ℚ) ≠ 0 := by
        simp only [ne_eq, Nat.cast_eq_zero]
        omega
      field_simp

/-- Witness for C1 (amended) at concrete inputs. -/
theorem price_per_unit_write_paths_witness :
    calculatePricePerDiaper (5497/100) 198 = some (roundTo 2 ((5497/100) / (198 : ℚ))) ∧
    (transformItem
        ⟨"198 Count".toList, "Pampers", "3", "Amazon.ca", 5497/100, "u", true⟩).isSome = true := by
  have hrow : transformItem
      ⟨"198 Count".toList, "Pampers", "3", "Amazon.ca", 5497/100, "u", true⟩
      = some ⟨"Pampers", "198 Count", "3", 198, "Amazon.ca", 5497/100,
          (5497/100 : ℚ) / ((198 : ℕ) : ℚ), "u", true⟩ := by
    rfl
  have h := price_per_unit_write_paths (5497/100) 198 (by norm_num) (by norm_num)
    ⟨"198 Count".toList, "Pampers", "3", "Amazon.ca", 5497/100, "u", true⟩
    ⟨"Pampers", "198 Count", "3", 198, "Amazon.ca", 5497/100,
      (5497/100 : ℚ) / ((198 : ℕ) : ℚ), "u", true⟩ hrow
  exact ⟨h.1, by rw [hrow]; rfl⟩

/-- Session logging touches only the `scraping_logs` table. -/
lemma logScrapingSession_history (db : DBState) (r : String) (n : Nat) (s : Bool)
    (e : Option String) (t : Option Nat) :
    (logScrapingSession db r n s e t).history = db.history := rfl

lemma logScrapingSession_diapers (db : DBState) (r : String) (n : Nat) (s : Bool)
    (e : Option String) (t : Option Nat) :
    (logScrapingSession db r n s e t).diapers = db.diapers := rfl

/-- The scheduled-scraping pipeline never writes to `price_history`:
`recordPriceHistory` has no caller in it. -/
lemma runScheduledScraping_history (items : List RawItem) (t : Nat) (db : DBState) :
    (runScheduledScraping items t db).history = db.history := by
  unfold runScheduledScraping
  split
  · rfl
  · rw [logScrapingSession_history]
    split <;> rfl

/-- One-item scheduled run whose item transforms: the diapers table receives
exactly one upsert. -/
lemma runScheduledScraping_one_item (i : RawItem) (t : Nat) (db : DBState)
    (row : DiaperRow) (hrow : transformItem i = some row) :
    (runScheduledScraping [i] t db).diapers = upsertDiaper db.diapers row := by
  unfold runScheduledScraping
  rw [if_neg (by simp)]
  rw [logScrapingSession_diapers]
  have hfm : ([i].filterMap transformItem) = [row] := by
    simp [hrow]
  rw [hfm, if_neg (by simp)]
  rfl

lemma transformItem_price (i : RawItem) (row : DiaperRow)
    (h : transformItem i = some row) : row.price = i.price := by
  unfold transformItem at h
  split at h
  · cases h
  · cases h
    rfl

/-- Counterexample to claim C4: two successive scheduled runs over the same
product key with different prices leave the `price_history` table with zero
entries, not two — nothing in the pipeline calls `recordPriceHistory`. -/
theorem two_runs_history_counterexample :
    (runScheduledScraping
        [⟨"198 Count".toList, "Pampers", "3", "Amazon.ca", 49, "u", true⟩] 7
        (runScheduledScraping
          [⟨"198 Count".toList, "Pampers", "3", "Amazon.ca", 5497/100, "u", true⟩] 5
          ⟨[], [], []⟩)).history.length = 0 ∧ (0 : Nat) ≠ 2 := by
  rw [runScheduledScraping_history, runScheduledScraping_history]
  exact ⟨rfl, by omega⟩

/-- Claim C4 (amended): if two successive scheduled runs each produce a
listing for the same key with (possibly different) prices, after the second
run the stored record carries only the second run's price — but the
`price_history` table is unchanged, because the pipeline never invokes
`recordPriceHistory`. -/
theorem two_runs_stored_price_no_history (db : DBState) (i1 i2 : RawItem)
    (row1 row2 : DiaperRow) (t1 t2 : Nat)
    (h1 : transformItem i1 = some row1) (h2 : transformItem i2 = some row2)
    (huniq : KeyUnique db.diapers) :
    ((runScheduledScraping [i2] t2 (runScheduledScraping [i1] t1 db)).diapers.filter
        fun r => sameKey r row2).length = 1 ∧
    (∀ r ∈ (runScheduledScraping [i2] t2 (runScheduledScraping [i1] t1 db)).diapers.filter
        fun r => sameKey r row2, r.price = i2.price) ∧
    (runScheduledScraping [i2] t2 (runScheduledScraping [i1] t1 db)).history = db.history := by
  have hd1 := runScheduledScraping_one_item i1 t1 db row1 h1
  have hd2 := runScheduledScraping_one_item i2 t2 (runScheduledScraping [i1] t1 db) row2 h2
  rw [hd1] at hd2
  have huniq1 := keyUnique_upsert db.diapers row1 huniq
  have hfk := upsert_filter_key (upsertDiaper db.diapers row1) row2 huniq1
  refine ⟨?_, ?_, ?_⟩
  · rw [hd2]
    exact hfk.1
  · intro r hr
    rw [hd2] at hr
    have := (hfk.2 r hr).2.1
    rw [this, transformItem_price i2 row2 h2]
  · rw [runScheduledScraping_history, runScheduledScraping_history]

/-- Witness for C4 (amended) at two concrete runs over the same key. -/
theorem two_runs_stored_price_no_history_witness :
    ((runScheduledScraping
        [⟨"198 Count".toList, "Pampers", "3", "Amazon.ca", 49, "u", true⟩] 7
        (runScheduledScraping
          [⟨"198 Count".toList, "Pampers", "3", "Amazon.ca", 5497/100, "u", true⟩] 5
          ⟨[], [], []⟩)).diapers.filter
      fun r => sameKey r ⟨"Pampers", "198 Count", "3", 198, "Amazon.ca", 49,
        (49 : ℚ) / ((198 : ℕ) : ℚ), "u", true⟩).length = 1 ∧
    (runScheduledScraping
        [⟨"198 Count".toList, "Pampers", "3", "Amazon.ca", 49, "u", true⟩] 7
        (runScheduledScraping
          [⟨"198 Count".toList, "Pampers", "3", "Amazon.ca", 5497/100, "u", true⟩] 5
          ⟨[], [], []⟩)).history = [] := by
  have h := two_runs_stored_price_no_history ⟨[], [], []⟩
    ⟨"198 Count".toList, "Pampers", "3", "Amazon.ca", 5497/100, "u", true⟩
    ⟨"198 Count".toList, "Pampers", "3", "Amazon.ca", 49, "u", true⟩
    ⟨"Pampers", "198 Count", "3", 198, "Amazon.ca", 5497/100,
      (5497/100 : ℚ) / ((198 : ℕ) : ℚ), "u", true⟩
    ⟨"Pampers", "198 Count", "3", 198, "Amazon.ca", 49,
      (49 : ℚ) / ((198 : ℕ) : ℚ), "u", true⟩
    5 7 rfl rfl List.Pairwise.nil
  exact ⟨h.1, h.2.2⟩

/-- The scheduling invariant holds initially. -/
lemma schedInv_init : SchedInv ⟨none, none⟩ := by
  intro t ht
  cases ht

/-- `handlerStep` preserves the scheduling invariant, provided recorded
attempt times lie in the past. -/
lemma schedInv_step (st : SchedState) (now interval : Nat) (ok : Bool)
    (h : SchedInv st)
    (hpast : ∀ u, st.lastScrapingTime = some u → u ≤ now) :
    SchedInv (handlerStep st now interval ok).2 := by
  unfold handlerStep
  split
  · intro t ht
    simp only at ht
    cases ok with
    | true =>
      simp only [if_pos rfl] at ht
      cases ht
      exact ⟨now, rfl, le_refl now⟩
    | false =>
      simp only [if_neg Bool.false_ne_true] at ht
      obtain ⟨u, hu, htu⟩ := h t ht
      exact ⟨now, rfl, le_trans htu (hpast u hu)⟩
  · exact h

/-- Claim C8: the scrape interval defaults to 12 hours; the job is re-run
only when the last successful run is at least the staleness interval old
(if a successful run exists at all); and a request arriving within the
interval of the last successful run never triggers a scrape, given the
invariant that a successful run is no later than the last attempt and that
recorded times are in the past. -/
theorem scraping_staleness_policy (env : Option Nat) (st : SchedState) (now : Nat)
    (ok : Bool) (hinv : SchedInv st)
    (hpast : ∀ u, st.lastScrapingTime = some u → u ≤ now) :
    scrapingInterval none = 12 * 60 * 60 * 1000 ∧
    ((handlerStep st now (scrapingInterval env) ok).1 = true →
      ∀ t, st.lastSuccessfulRun = some t → scrapingInterval env ≤ now - t) ∧
    (∀ t, st.lastSuccessfulRun = some t → now - t < scrapingInterval env →
      (handlerStep st now (scrapingInterval env) ok).1 = false) := by
  refine ⟨rfl, ?_, ?_⟩
  · intro hfire t ht
    obtain ⟨u, hu, htu⟩ := hinv t ht
    unfold handlerStep at hfire
    by_cases hs : shouldScrape st.lastScrapingTime now (scrapingInterval env) = true
    · unfold shouldScrape at hs
      rw [hu] at hs
      simp only [decide_eq_true_eq] at hs
      have : now - u ≤ now - t := Nat.sub_le_sub_left htu now
      omega
    · rw [if_neg (by simpa using hs)] at hfire
      cases hfire
  · intro t ht hlt
    obtain ⟨u, hu, htu⟩ := hinv t ht
    have hun : u ≤ now := hpast u hu
    have hs : shouldScrape st.lastScrapingTime now (scrapingInterval env) = false := by
      unfold shouldScrape
      rw [hu]
      simp only [decide_eq_false_iff_not]
      have : now - u ≤ now - t := Nat.sub_le_sub_left htu now
      omega
    unfold handlerStep
    rw [if_neg (by simp [hs])]

/-- Witness for C8: a request one hour after a recorded run does not trigger
a scrape under the default 12-hour interval. -/
theorem scraping_staleness_policy_witness :
    scrapingInterval none = 12 * 60 * 60 * 1000 ∧
    (handlerStep ⟨some 1000, some 1000⟩ 3601000 (scrapingInterval none) true).1 = false := by
  have hinv : SchedInv ⟨some 1000, some 1000⟩ := by
    intro t ht
    cases ht
    exact ⟨1000, rfl, le_refl 1000⟩
  have hpast : ∀ u, (some 1000 : Option Nat) = some u → u ≤ 3601000 := by
    intro u hu
    cases hu
    omega
  have h := scraping_staleness_policy none ⟨some 1000, some 1000⟩ 3601000 true hinv hpast
  exact ⟨h.1, h.2.2 1000 rfl (by norm_num [scrapingInterval])⟩

/-- A body of exactly 1000 characters containing an access-denied marker but
no CAPTCHA marker. -/
def accessDeniedBody : Str := "access denied".toList ++ List.replicate 987 'x'

set_option maxRecDepth 40000 in
/-- Counterexample to claim C7: the source checks only for `captcha` /
`CAPTCHA` and short bodies — a long response whose body carries an
"access denied" marker is not classified as blocked. -/
theorem blocked_detection_counterexample :
    isSubstring "access denied".toList accessDeniedBody = true ∧
    1000 ≤ accessDeniedBody.length ∧
    isBlockedResponse accessDeniedBody = false := by
  refine ⟨by decide, by decide, by decide⟩

/-- Claim C7 (amended): a response is classified blocked exactly when its
body contains the substring `captcha` or `CAPTCHA` or is shorter than 1000
characters (access-denied and too-many-requests markers are not checked);
and a blocked first attempt triggers the next retry attempt rather than
immediate failure — a clean second attempt is returned. -/
theorem blocked_detection_and_retry (body1 body2 : Str)
    (h1 : isBlockedResponse body1 = true) (h2 : isBlockedResponse body2 = false)
    (rest : List (Except String Str)) :
    (∀ b : Str, isBlockedResponse b = true ↔
      (isSubstring "captcha".toList b = true ∨ isSubstring "CAPTCHA".toList b = true ∨
        b.length < 1000)) ∧
    makeRequest (Except.ok body1 :: Except.ok body2 :: rest) = Except.ok body2 := by
  constructor
  · intro b
    unfold isBlockedResponse
    simp [or_assoc]
  · unfold makeRequest
    rw [List.take_succ_cons, List.take_succ_cons]
    simp [makeRequestLoop, h1, h2]

set_option maxRecDepth 40000 in
/-- Witness for C7 (amended): a short (blocked) first body followed by a
long clean body. -/
theorem blocked_detection_and_retry_witness :
    isBlockedResponse ['x'] = true ∧
    isBlockedResponse (List.replicate 1000 'a') = false ∧
    makeRequest [Except.ok ['x'], Except.ok (List.replicate 1000 'a')]
      = Except.ok (List.replicate 1000 'a') := by
  have h1 : isBlockedResponse ['x'] = true := by decide
  have h2 : isBlockedResponse (List.replicate 1000 'a') = false := by decide
  exact ⟨h1, h2, (blocked_detection_and_retry ['x'] (List.replicate 1000 'a') h1 h2 []).2⟩

/-- Counterexample to claim C6: the title `Value 144 pack 100 Count`
contains the substring `100 Count` with 100 in the plausible range, yet
`extractCount` returns 144 — the first number-with-unit occurrence wins,
not the quantified one. -/
theorem extract_count_contains_counterexample :
    isSubstring "100 Count".toList "Value 144 pack 100 Count".toList = true ∧
    ((12 : Nat) ≤ 100 ∧ (100 : Nat) ≤ 300) ∧
    extractCount "Value 144 pack 100 Count".toList = some 144 ∧ (144 : Nat) ≠ 100 := by
  exact ⟨by decide, by decide, by decide, by decide⟩

/-- Claim C6 (amended): whenever the leftmost match of the primary count
pattern (a number followed by count/ct/pack/pc(s)/piece(s)/diaper(s), not
followed by a digit or dot) captures digits parsing to `n` with
`12 ≤ n ≤ 300`, `extractCount` returns `n` — in particular the spec's
example `Pampers Baby Dry Size 3 (198 Count)` yields 198. -/
theorem extract_count_first_pattern_match (name : Str) (n : Nat)
    (hcap : (firstCapture pattern1 name).map parseDigits = some n)
    (h12 : 12 ≤ n) (h300 : n ≤ 300) :
    extractCount name = some n := by
  cases hf : firstCapture pattern1 name with
  | none => rw [hf] at hcap; cases hcap
  | some ds =>
    rw [hf] at hcap
    simp only [Option.map_some'] at hcap
    have hpd : parseDigits ds = n := by injection hcap
    have hne : name ≠ [] := by
      intro he
      subst he
      rw [show firstCapture pattern1 [] = none from rfl] at hf
      cases hf
    unfold extractCount
    rw [if_neg hne]
    have ht : tryPatterns extractCountPatterns name = some n := by
      unfold extractCountPatterns tryPatterns
      simp only [hf]
      rw [hpd, if_pos ⟨h12, h300⟩]
    rw [ht]

/-- Witness for C6 (amended) at the spec's example title. -/
theorem extract_count_first_pattern_match_witness :
    (firstCapture pattern1 "Pampers Baby Dry Size 3 (198 Count)".toList).map parseDigits
        = some 198 ∧
    extractCount "Pampers Baby Dry Size 3 (198 Count)".toList = some 198 := by
  have hcap : (firstCapture pattern1 "Pampers Baby Dry Size 3 (198 Count)".toList).map
      parseDigits = some 198 := by decide
  exact ⟨hcap, extract_count_first_pattern_match _ 198 hcap (by omega) (by omega)⟩

/-- Witness for C3 at a concrete table and listing. -/
theorem upsert_idempotent_on_natural_key_witness :
    KeyUnique [] ∧
    ((upsertDiaper (upsertDiaper []
        ⟨"Pampers", "Baby Dry", "3", 198, "Amazon.ca", 5497/100, 2776/10000, "u", true⟩)
        ⟨"Pampers", "Baby Dry", "3", 198, "Amazon.ca", 5497/100, 2776/10000, "u", true⟩).filter
      fun r => sameKey r
        ⟨"Pampers", "Baby Dry", "3", 198, "Amazon.ca", 5497/100, 2776/10000, "u", true⟩).length = 1 := by
  have h := upsert_idempotent_on_natural_key []
    ⟨"Pampers", "Baby Dry", "3", 198, "Amazon.ca", 5497/100, 2776/10000, "u", true⟩
    List.Pairwise.nil
  exact ⟨List.Pairwise.nil, h.2.1⟩

end Diapers
